import Mathlib

/-!
Verification development for the superup marketplace server.

The definitions below are a shallow embedding of the wallet ledger,
order, settlement and subscription logic of the repository:

* wallet model and methods   — server/middleware/auth.middleware.js (wallet schema part)
* order model and methods    — server/middleware/auth.middleware.js (order schema part)
* subscription model         — server/middleware/auth.middleware.js (subscription schema part)
* order routes, distributePayment, processRefund — server/routes/auth.routes.js
* wallet routes (deposit/withdraw/transfer)      — wallet routes file
* delivery routes (accept)   — delivery routes file
* subscription routes (wallet-payment step)      — server/routes/user.routes.js
* product model (reduceStock) — server/models/product.model.js

Monetary amounts (XOF) are modelled as integers, document ids as naturals,
and the mongoose document store as explicit lists threaded through each
route handler.  Fields that no handler modelled here reads or writes
(descriptions, timestamps, shipping addresses, payment-method tags, ...)
are omitted.  Randomly generated transaction references are inputs.
-/

namespace SuperUp

/-- Transaction `type` enum of the transaction schema. -/
inductive TxType
  | deposit | withdrawal | payment | refund | commission | fee
deriving DecidableEq, Repr

/-- Transaction `status` enum of the transaction schema. -/
inductive TxStatus
  | pending | completed | failed | cancelled
deriving DecidableEq, Repr

/-- One entry of a wallet's `transactions` array (transaction schema),
restricted to the fields the verified code reads. -/
structure Transaction where
  type : TxType
  amount : Int
  status : TxStatus
  reference : String
deriving DecidableEq, Repr

/-- Wallet `walletType` enum. -/
inductive WalletType
  | buyer | seller | delivery | admin
deriving DecidableEq, Repr

/-- Wallet document (wallet schema). -/
structure Wallet where
  owner : Nat
  walletType : WalletType
  balance : Int
  transactions : List Transaction
deriving DecidableEq, Repr

/-- Credit transaction types, as listed in `walletSchema.methods.addTransaction`:
deposit, refund and commission increase the balance. -/
def isCreditType (t : TxType) : Bool :=
  match t with
  | .deposit | .refund | .commission => true
  | _ => false

/-- Debit transaction types, as listed in `walletSchema.methods.addTransaction`:
withdrawal, payment and fee decrease the balance. -/
def isDebitType (t : TxType) : Bool :=
  match t with
  | .withdrawal | .payment | .fee => true
  | _ => false

/-- `walletSchema.methods.addTransaction`: push the transaction onto the log and
update the balance according to the type sign table (the status of the
transaction is not consulted). -/
def Wallet.addTransaction (w : Wallet) (tx : Transaction) : Wallet :=
  let w1 : Wallet := { w with transactions := w.transactions ++ [tx] }
  if isCreditType tx.type then { w1 with balance := w1.balance + tx.amount }
  else if isDebitType tx.type then { w1 with balance := w1.balance - tx.amount }
  else w1

/-- `walletSchema.methods.hasSufficientBalance`. -/
def Wallet.hasSufficientBalance (w : Wallet) (amount : Int) : Bool :=
  w.balance ≥ amount

/-- Apply a sequence of `addTransaction` calls in order. -/
def applyTransactions (w : Wallet) (txs : List Transaction) : Wallet :=
  txs.foldl Wallet.addTransaction w

/-- Sum of the amounts of the completed credit-type transactions of a log. -/
def completedCredits (txs : List Transaction) : Int :=
  ((txs.filter fun t => decide (t.status = .completed) && isCreditType t.type).map
    Transaction.amount).sum

/-- Sum of the amounts of the completed debit-type transactions of a log. -/
def completedDebits (txs : List Transaction) : Int :=
  ((txs.filter fun t => decide (t.status = .completed) && isDebitType t.type).map
    Transaction.amount).sum

/-- Every transaction type is either a credit type or a debit type. -/
theorem creditType_or_debitType (t : TxType) : isCreditType t = true ∨ isDebitType t = true := by
  cases t <;> simp [isCreditType, isDebitType]

/-- The ledger equation `balance = completed credits - completed debits` is
preserved by `addTransaction` with a completed transaction. -/
theorem addTransaction_ledger (w : Wallet) (t : Transaction)
    (hw : w.balance = completedCredits w.transactions - completedDebits w.transactions)
    (ht : t.status = .completed) :
    (w.addTransaction t).balance =
      completedCredits (w.addTransaction t).transactions -
        completedDebits (w.addTransaction t).transactions := by
  rcases t with ⟨ty, amt, st, ref⟩
  cases ht
  rcases creditType_or_debitType ty with hc | hd
  · have hd : isDebitType ty = false := by
      cases ty <;> simp_all [isCreditType, isDebitType]
    simp [Wallet.addTransaction, completedCredits, completedDebits,
      List.filter_append, hc, hd, hw]
    omega
  · have hc : isCreditType ty = false := by
      cases ty <;> simp_all [isCreditType, isDebitType]
    simp [Wallet.addTransaction, completedCredits, completedDebits,
      List.filter_append, hc, hd, hw]
    omega

/-- The ledger equation is preserved by any sequence of completed
`addTransaction` calls. -/
theorem applyTransactions_ledger (txs : List Transaction) :
    ∀ w : Wallet,
      w.balance = completedCredits w.transactions - completedDebits w.transactions →
      (∀ t ∈ txs, t.status = .completed) →
      (applyTransactions w txs).balance =
        completedCredits (applyTransactions w txs).transactions -
          completedDebits (applyTransactions w txs).transactions := by
  induction txs with
  | nil => intro w hw _; simpa [applyTransactions] using hw
  | cons t rest ih =>
      intro w hw hc
      have hstep := addTransaction_ledger w t hw (hc t (by simp))
      have := ih (w.addTransaction t) hstep (fun t' ht' => hc t' (by simp [ht']))
      simpa [applyTransactions] using this

/-- C3: starting from a fresh wallet (balance 0, empty log), after any sequence
of `addTransaction` calls whose transactions are all completed, the balance
equals the sum of credit-type amounts minus the sum of debit-type amounts over
the wallet's completed transactions. -/
theorem wallet_balance_ledger_invariant (w0 : Wallet) (txs : List Transaction)
    (hbal : w0.balance = 0) (hlog : w0.transactions = [])
    (hcompleted : ∀ t ∈ txs, t.status = .completed) :
    (applyTransactions w0 txs).balance =
      completedCredits (applyTransactions w0 txs).transactions -
        completedDebits (applyTransactions w0 txs).transactions := by
  refine applyTransactions_ledger txs w0 ?_ hcompleted
  simp [hbal, hlog, completedCredits, completedDebits]

/-- Witness for C3 at a concrete fresh wallet and a concrete two-transaction
history: a 500 XOF completed deposit followed by a 200 XOF completed
withdrawal. -/
theorem wallet_balance_ledger_invariant_witness :
    (applyTransactions ⟨7, .buyer, 0, []⟩
        [⟨.deposit, 500, .completed, "r1"⟩, ⟨.withdrawal, 200, .completed, "r2"⟩]).balance =
      completedCredits (applyTransactions ⟨7, .buyer, 0, []⟩
        [⟨.deposit, 500, .completed, "r1"⟩, ⟨.withdrawal, 200, .completed, "r2"⟩]).transactions -
        completedDebits (applyTransactions ⟨7, .buyer, 0, []⟩
          [⟨.deposit, 500, .completed, "r1"⟩, ⟨.withdrawal, 200, .completed, "r2"⟩]).transactions :=
  wallet_balance_ledger_invariant ⟨7, .buyer, 0, []⟩
    [⟨.deposit, 500, .completed, "r1"⟩, ⟨.withdrawal, 200, .completed, "r2"⟩]
    rfl rfl (by decide)

/-- Order `status` enum of the order schema. -/
inductive OrderStatus
  | pending | processing | shipped | delivered | cancelled | refunded
deriving DecidableEq, Repr

/-- Order `paymentStatus` enum of the order schema. -/
inductive PaymentStatus
  | pending | paid | released | refunded | failed
deriving DecidableEq, Repr

/-- Order `deliveryStatus` enum of the order schema. -/
inductive DeliveryStatus
  | pending | assigned | picked_up | in_transit | delivered | failed
deriving DecidableEq, Repr

/-- Order `paymentMethod` enum of the order schema. -/
inductive PaymentMethod
  | wallet | mobile_money | credit_card | bank_transfer
deriving DecidableEq, Repr

/-- One order line item (order item schema). -/
structure OrderItem where
  product : Nat
  quantity : Int
  price : Int
  subtotal : Int
deriving DecidableEq, Repr

/-- Order document (order schema), restricted to the fields the verified
handlers read or write. -/
structure Order where
  id : Nat
  buyer : Nat
  items : List OrderItem
  totalAmount : Int
  platformFee : Int
  deliveryFee : Int
  adminFee : Int
  status : OrderStatus
  paymentStatus : PaymentStatus
  paymentMethod : PaymentMethod
  deliveryAgent : Option Nat
  deliveryStatus : DeliveryStatus
deriving DecidableEq, Repr

/-- User role enum of the user schema. -/
inductive Role
  | buyer | seller | delivery | admin | customer_service
deriving DecidableEq, Repr

/-- Delivery-agent sub-document of the user schema, restricted to the field
the delivery accept route reads. -/
structure DeliveryInfo where
  isAvailable : Bool
deriving DecidableEq, Repr

/-- User document, restricted to the fields the verified handlers read. -/
structure UserRec where
  id : Nat
  roles : List Role
  deliveryInfo : Option DeliveryInfo
deriving DecidableEq, Repr

/-- Product document (product schema), restricted to the fields the verified
handlers read or write. -/
structure Product where
  id : Nat
  seller : Nat
  price : Int
  stock : Int
  isAvailable : Bool
deriving DecidableEq, Repr

/-- The document store: one list per collection the verified handlers touch. -/
structure DB where
  users : List UserRec
  products : List Product
  wallets : List Wallet
  orders : List Order
deriving DecidableEq, Repr

/-- `walletSchema.statics.findByOwnerAndType` / `Wallet.findOne({owner, walletType})`:
first wallet of the store with the given owner and type. -/
def findByOwnerAndType (ws : List Wallet) (owner : Nat) (wt : WalletType) : Option Wallet :=
  ws.find? fun w => decide (w.owner = owner ∧ w.walletType = wt)

/-- Persisting a mutated wallet document: replace the first wallet with the
same (owner, walletType) key.  The handlers look wallets up through
`findByOwnerAndType`, which resolves to the first match, so the first match
is the document being saved. -/
def saveWallet : List Wallet → Wallet → List Wallet
  | [], _ => []
  | x :: xs, w =>
      if x.owner = w.owner ∧ x.walletType = w.walletType then w :: xs
      else x :: saveWallet xs w

/-- Persisting a mutated product document: replace the product with the same id. -/
def saveProduct : List Product → Product → List Product
  | [], _ => []
  | x :: xs, p => if x.id = p.id then p :: xs else x :: saveProduct xs p

/-- Persisting an order document: replace the order with the same id if
present, otherwise append it (first save of a new document). -/
def saveOrder (os : List Order) (o : Order) : List Order :=
  if os.any fun x => decide (x.id = o.id) then
    os.map fun x => if x.id = o.id then o else x
  else os ++ [o]

/-- Transactions built by the route handlers: always status `completed`, with a
freshly drawn random reference supplied by the caller. -/
def mkTx (ty : TxType) (amount : Int) (ref : String) : Transaction :=
  { type := ty, amount := amount, status := .completed, reference := ref }

/-- Look up a wallet by owner and type and append a transaction to it, as the
settlement and refund helpers do; when the wallet does not exist the helper
skips the credit silently. -/
def creditWallet (db : DB) (owner : Nat) (wt : WalletType) (tx : Transaction) : DB :=
  match findByOwnerAndType db.wallets owner wt with
  | none => db
  | some w => { db with wallets := saveWallet db.wallets (w.addTransaction tx) }

/-- `orderSchema.methods.updateStatus`: set the status; when the new status is
delivered set paymentStatus to released, when cancelled set it to refunded
(the prior paymentStatus is not consulted). -/
def Order.updateStatus (o : Order) (status : OrderStatus) : Order :=
  let o1 : Order := { o with status := status }
  if status = .delivered then { o1 with paymentStatus := .released }
  else if status = .cancelled then { o1 with paymentStatus := .refunded }
  else o1

/-- `orderSchema.methods.updateDeliveryStatus`: set the delivery status; when
it is delivered also set the order status to delivered and paymentStatus to
released. -/
def Order.updateDeliveryStatus (o : Order) (status : DeliveryStatus) : Order :=
  let o1 : Order := { o with deliveryStatus := status }
  if status = .delivered then
    { o1 with status := .delivered, paymentStatus := .released }
  else o1

/-- `orderSchema.methods.assignDeliveryAgent`: unconditionally overwrite the
agent and mark the delivery status assigned. -/
def Order.assignDeliveryAgent (o : Order) (agentId : Nat) : Order :=
  { o with deliveryAgent := some agentId, deliveryStatus := .assigned }

/-- The order pre-save hook: when the items path was modified, recompute
totalAmount as the sum of the item subtotals plus the order's platformFee. -/
def orderPreSave (o : Order) (itemsModified : Bool) : Order :=
  if itemsModified then
    { o with totalAmount := (o.items.map OrderItem.subtotal).sum + o.platformFee }
  else o

/-- Grouping of `distributePayment`: fold the order items into an association
list keyed by the seller of each item's product, in first-occurrence order;
items whose product is not found are dropped. -/
def insertSellerItem : List (Nat × List OrderItem) → Nat → OrderItem → List (Nat × List OrderItem)
  | [], sellerId, item => [(sellerId, [item])]
  | (s, its) :: rest, sellerId, item =>
      if s = sellerId then (s, its ++ [item]) :: rest
      else (s, its) :: insertSellerItem rest sellerId item

/-- Group order items by the seller of their product (`distributePayment`). -/
def groupBySeller (items : List OrderItem) (products : List Product) :
    List (Nat × List OrderItem) :=
  items.foldl
    (fun acc item =>
      match products.find? (fun p => decide (p.id = item.product)) with
      | none => acc
      | some p => insertSellerItem acc p.seller item)
    []

/-- `distributePayment` (auth.routes.js): credit each seller's seller wallet
with that seller's subtotal (deposit), the assigned delivery agent's delivery
wallet with the order's deliveryFee (commission), and the first admin user's
admin wallet with the order's adminFee (fee); finally set the order's
paymentStatus to released.  `refs n` is the value of the n-th random
reference drawn. -/
def distributePayment (db : DB) (order : Order) (refs : Nat → String) : DB × Order :=
  let groups := groupBySeller order.items db.products
  let step := fun (acc : DB × Nat) (g : Nat × List OrderItem) =>
    let sellerTotal := (g.2.map OrderItem.subtotal).sum
    (creditWallet acc.1 g.1 .seller (mkTx .deposit sellerTotal (refs acc.2)), acc.2 + 1)
  let a1 := groups.foldl step (db, 0)
  let a2 :=
    match order.deliveryAgent with
    | some agent =>
        (creditWallet a1.1 agent .delivery (mkTx .commission order.deliveryFee (refs a1.2)),
         a1.2 + 1)
    | none => a1
  let db3 :=
    match db.users.find? (fun u => decide (Role.admin ∈ u.roles)) with
    | some adminUser => creditWallet a2.1 adminUser.id .admin (mkTx .fee order.adminFee (refs a2.2))
    | none => a2.1
  let order1 : Order := { order with paymentStatus := .released }
  ({ db3 with orders := saveOrder db3.orders order1 }, order1)

/-- `processRefund` (auth.routes.js): credit the buyer's buyer wallet with a
refund transaction of the order's totalAmount and set paymentStatus to
refunded; when the buyer wallet does not exist nothing happens. -/
def processRefund (db : DB) (order : Order) (ref : String) : DB × Order :=
  match findByOwnerAndType db.wallets order.buyer .buyer with
  | none => (db, order)
  | some w =>
      let db1 : DB :=
        { db with wallets := saveWallet db.wallets (w.addTransaction (mkTx .refund order.totalAmount ref)) }
      let order1 : Order := { order with paymentStatus := .refunded }
      ({ db1 with orders := saveOrder db1.orders order1 }, order1)

/-- PUT /orders/:id/status (auth.routes.js): apply `updateStatus`, then — on
the already-mutated document — test `status = delivered` and
`paymentStatus = paid` before distributing, and `status = cancelled` and
`paymentStatus = paid` before refunding.  The admin-role gate and the 404
path are outside the model: the handler is applied to the found order. -/
def updateOrderStatusRoute (db : DB) (order : Order) (status : OrderStatus)
    (refs : Nat → String) : DB × Order :=
  let order1 := order.updateStatus status
  let db1 : DB := { db with orders := saveOrder db.orders order1 }
  let r1 :=
    if status = .delivered ∧ order1.paymentStatus = .paid then
      distributePayment db1 order1 refs
    else (db1, order1)
  if status = .cancelled ∧ r1.2.paymentStatus = .paid then
    processRefund r1.1 r1.2 (refs 0)
  else r1

/-- PUT /orders/:id/delivery-status (auth.routes.js): reject (403) unless the
requesting user is the assigned agent; apply `updateDeliveryStatus`; then — on
the already-mutated document — test `status = delivered` and
`paymentStatus = paid` before distributing. -/
def updateDeliveryStatusRoute (db : DB) (order : Order) (userId : Nat)
    (status : DeliveryStatus) (refs : Nat → String) : Option (DB × Order) :=
  if order.deliveryAgent = some userId then
    let order1 := order.updateDeliveryStatus status
    let db1 : DB := { db with orders := saveOrder db.orders order1 }
    if status = .delivered ∧ order1.paymentStatus = .paid then
      some (distributePayment db1 order1 refs)
    else some (db1, order1)
  else none

/-- PUT /orders/:id/assign-delivery (auth.routes.js): 404 unless the given
user exists and has the delivery role, then `assignDeliveryAgent`
unconditionally — an already-assigned agent is overwritten. -/
def assignDeliveryRoute (db : DB) (order : Order) (deliveryAgentId : Nat) : Option Order :=
  match db.users.find? (fun u => decide (u.id = deliveryAgentId)) with
  | none => none
  | some agent =>
      if Role.delivery ∈ agent.roles then some (order.assignDeliveryAgent deliveryAgentId)
      else none

/-- PUT /delivery/accept/:id (delivery routes): 400 unless the order is
processing, its delivery status pending and no agent assigned; 400 unless the
requesting agent has deliveryInfo and is available; then `assignDeliveryAgent`. -/
def acceptDeliveryRoute (db : DB) (order : Order) (userId : Nat) : Option Order :=
  if order.status ≠ .processing ∨ order.deliveryStatus ≠ .pending ∨ order.deliveryAgent ≠ none then
    none
  else
    match db.users.find? (fun u => decide (u.id = userId)) with
    | none => none
    | some user =>
        match user.deliveryInfo with
        | none => none
        | some info => if info.isAvailable then some (order.assignDeliveryAgent userId) else none

/-- Concrete wallet store: empty seller wallets for sellers 1 and 2, a delivery
wallet for agent 3, an admin wallet for admin 4, and a buyer wallet for buyer 5. -/
def walletsC : List Wallet :=
  [⟨1, .seller, 0, []⟩, ⟨2, .seller, 0, []⟩, ⟨3, .delivery, 0, []⟩,
   ⟨4, .admin, 0, []⟩, ⟨5, .buyer, 10000, []⟩]

/-- Concrete user store matching `walletsC`, with a second delivery agent 6. -/
def usersC : List UserRec :=
  [⟨1, [.seller], none⟩, ⟨2, [.seller], none⟩, ⟨3, [.delivery], some ⟨true⟩⟩,
   ⟨4, [.admin], none⟩, ⟨5, [.buyer], none⟩, ⟨6, [.delivery], some ⟨true⟩⟩]

/-- Concrete products: product 11 of seller 1 at 5000 XOF, product 12 of
seller 2 at 3000 XOF. -/
def productsC : List Product :=
  [⟨11, 1, 5000, 10, true⟩, ⟨12, 2, 3000, 10, true⟩]

/-- Concrete paid order: one item from each seller (subtotals 5000 and 3000),
totalAmount 9200 = 8000 + 1200, delivery agent 3 assigned, in transit. -/
def orderC : Order :=
  ⟨100, 5, [⟨11, 1, 5000, 5000⟩, ⟨12, 1, 3000, 3000⟩], 9200, 1200, 1000, 200,
   .shipped, .paid, .wallet, some 3, .in_transit⟩

/-- Concrete document store for the settlement scenarios. -/
def dbC : DB := ⟨usersC, productsC, walletsC, [orderC]⟩

/-- Concrete reference stream. -/
def refsC : Nat → String := fun n => toString n

/-- C1: for every order with paymentStatus paid, marking it delivered through
either trigger route leaves every wallet unchanged — `updateStatus` /
`updateDeliveryStatus` first set paymentStatus to released, so the
paymentStatus = paid test that guards `distributePayment` always fails and no
seller, delivery or admin wallet is ever credited. -/
theorem delivered_route_never_distributes (db : DB) (order : Order) (refs : Nat → String)
    (h : order.paymentStatus = .paid) :
    (updateOrderStatusRoute db order .delivered refs).1.wallets = db.wallets ∧
    (updateOrderStatusRoute db order .delivered refs).2.paymentStatus = .released ∧
    ∀ uid res, updateDeliveryStatusRoute db order uid .delivered refs = some res →
      res.1.wallets = db.wallets ∧ res.2.paymentStatus = .released := by
  refine ⟨?_, ?_, ?_⟩
  · simp [updateOrderStatusRoute, Order.updateStatus]
  · simp [updateOrderStatusRoute, Order.updateStatus]
  · intro uid res hres
    by_cases hag : order.deliveryAgent = some uid
    · simp [updateDeliveryStatusRoute, Order.updateDeliveryStatus, hag] at hres
      simp [← hres, Order.updateDeliveryStatus]
    · simp [updateDeliveryStatusRoute, hag] at hres

/-- Witness for C1 at the spec's concrete two-seller configuration. -/
theorem delivered_route_never_distributes_witness :
    (updateOrderStatusRoute dbC orderC .delivered refsC).1.wallets = dbC.wallets ∧
    (updateOrderStatusRoute dbC orderC .delivered refsC).2.paymentStatus = .released ∧
    ∀ uid res, updateDeliveryStatusRoute dbC orderC uid .delivered refsC = some res →
      res.1.wallets = dbC.wallets ∧ res.2.paymentStatus = .released :=
  delivered_route_never_distributes dbC orderC refsC rfl

/-- C2: for every order with paymentStatus paid, cancelling it through the
status route leaves every wallet unchanged — `updateStatus` first sets
paymentStatus to refunded, so the paymentStatus = paid test that guards
`processRefund` always fails and the buyer is never credited; the order does
end with paymentStatus refunded. -/
theorem cancelled_route_never_refunds (db : DB) (order : Order) (refs : Nat → String)
    (h : order.paymentStatus = .paid) :
    (updateOrderStatusRoute db order .cancelled refs).1.wallets = db.wallets ∧
    (updateOrderStatusRoute db order .cancelled refs).2.paymentStatus = .refunded := by
  constructor <;> simp [updateOrderStatusRoute, Order.updateStatus]

/-- Witness for C2 at the concrete paid order. -/
theorem cancelled_route_never_refunds_witness :
    (updateOrderStatusRoute dbC orderC .cancelled refsC).1.wallets = dbC.wallets ∧
    (updateOrderStatusRoute dbC orderC .cancelled refsC).2.paymentStatus = .refunded :=
  cancelled_route_never_refunds dbC orderC refsC rfl

/-- Concrete order whose payment never happened: paymentStatus pending. -/
def orderPendingC : Order := { orderC with paymentStatus := .pending, paymentMethod := .mobile_money }

/-- Counterexample to C5: an order with paymentStatus pending is marked
delivered through the admin status route, and its paymentStatus becomes
released — a released state reached from a state other than paid. -/
theorem paymentStatus_pending_to_released_cex :
    orderPendingC.paymentStatus = .pending ∧
    (updateOrderStatusRoute dbC orderPendingC .delivered refsC).2.paymentStatus = .released :=
  ⟨rfl, rfl⟩

/-- C5 amended: `updateStatus` sets paymentStatus to released whenever the new
status is delivered and to refunded whenever it is cancelled, regardless of
the prior paymentStatus, and `updateDeliveryStatus` sets it to released
whenever the delivery status is delivered; otherwise paymentStatus is
unchanged. -/
theorem updateStatus_paymentStatus_characterization (o : Order) (s : OrderStatus)
    (ds : DeliveryStatus) :
    (o.updateStatus s).paymentStatus =
      (if s = .delivered then .released
       else if s = .cancelled then .refunded else o.paymentStatus) ∧
    (o.updateDeliveryStatus ds).paymentStatus =
      (if ds = .delivered then .released else o.paymentStatus) := by
  constructor
  · cases s <;> simp [Order.updateStatus]
  · cases ds <;> simp [Order.updateDeliveryStatus]

/-- Counterexample to C9: `orderC` already has delivery agent 3, yet the admin
assign-delivery route with agent 6 succeeds and replaces the agent. -/
theorem admin_reassigns_delivery_agent_cex :
    orderC.deliveryAgent = some 3 ∧
    (assignDeliveryRoute dbC orderC 6).map Order.deliveryAgent = some (some 6) :=
  ⟨rfl, rfl⟩

/-- C9 amended: the delivery-agent self-assignment route never reassigns — it
rejects every order whose deliveryAgent is already set — but the admin
assign-delivery route overwrites the agent unconditionally (see the
counterexample). -/
theorem accept_route_rejects_assigned (db : DB) (order : Order) (userId : Nat)
    (h : order.deliveryAgent ≠ none) :
    acceptDeliveryRoute db order userId = none := by
  unfold acceptDeliveryRoute
  rw [if_pos (Or.inr (Or.inr h))]

/-- Witness for the amended C9: agent 6 cannot accept `orderC`, which already
has agent 3 assigned. -/
theorem accept_route_rejects_assigned_witness :
    acceptDeliveryRoute dbC orderC 6 = none :=
  accept_route_rejects_assigned dbC orderC 6 (by simp [orderC])

/-- Error responses of the order-creation and wallet routes, keyed by the
distinct early-return branches of the handlers. -/
inductive OrderError
  | validationFailed
  | productNotFound (pid : Nat)
  | productNotAvailable (pid : Nat)
  | insufficientStock (pid : Nat)
  | walletNotFound
  | insufficientBalance (required available : Int)
  | serverError
deriving DecidableEq, Repr

/-- One entry of the request body's items array for POST /orders. -/
structure RequestItem where
  product : Nat
  quantity : Int
deriving DecidableEq, Repr

/-- The product-validation loop of POST /orders: for each requested item look
the product up (404 when absent), reject unavailable products and requests
above stock, and build the order item with subtotal = price * quantity. -/
def buildOrderItems (products : List Product) :
    List RequestItem → Except OrderError (List OrderItem)
  | [] => .ok []
  | item :: rest =>
      match products.find? (fun p => decide (p.id = item.product)) with
      | none => .error (.productNotFound item.product)
      | some p =>
          if p.isAvailable = false then .error (.productNotAvailable p.id)
          else if p.stock < item.quantity then .error (.insufficientStock p.id)
          else
            match buildOrderItems products rest with
            | .error e => .error e
            | .ok tail =>
                .ok ({ product := p.id, quantity := item.quantity, price := p.price,
                       subtotal := p.price * item.quantity } :: tail)

/-- `productSchema.methods.isInStock`. -/
def Product.isInStock (p : Product) (quantity : Int) : Bool :=
  p.stock ≥ quantity && p.isAvailable

/-- `productSchema.methods.reduceStock`: throws (`none`) when not in stock,
otherwise decrements the stock and clears availability at zero. -/
def Product.reduceStock (p : Product) (quantity : Int) : Option Product :=
  if p.isInStock quantity = false then none
  else
    let stock1 := p.stock - quantity
    some { p with stock := stock1, isAvailable := if stock1 = 0 then false else p.isAvailable }

/-- The stock-reduction loop at the end of POST /orders: re-fetch each product
and call `reduceStock`; a missing product or a `reduceStock` throw aborts the
loop (500 response) with the earlier reductions already persisted. -/
def reduceStockLoop (db : DB) : List OrderItem → DB × Bool
  | [] => (db, true)
  | it :: rest =>
      match db.products.find? (fun p => decide (p.id = it.product)) with
      | none => (db, false)
      | some p =>
          match p.reduceStock it.quantity with
          | none => (db, false)
          | some p1 => reduceStockLoop { db with products := saveProduct db.products p1 } rest

/-- POST /orders (auth.routes.js): validate the items and build order items;
compute totalAmount = product total + fixed 1200 XOF platform fee; for wallet
payment check the buyer wallet's balance before persisting anything; persist
the order (the pre-save hook recomputes totalAmount); for wallet payment
append a completed payment transaction of totalAmount to the buyer wallet,
mark the order paid/processing, and reduce each product's stock.  `oid` is
the id given to the new order document and `ref` the random reference drawn
for the payment transaction. -/
def createOrderRoute (db : DB) (buyerId : Nat) (reqItems : List RequestItem)
    (paymentMethod : PaymentMethod) (ref : String) (oid : Nat) :
    DB × Except OrderError Order :=
  if reqItems = [] then (db, .error .validationFailed)
  else
    match buildOrderItems db.products reqItems with
    | .error e => (db, .error e)
    | .ok orderItems =>
        let productTotal := (orderItems.map OrderItem.subtotal).sum
        let platformFee : Int := 1200
        let totalAmount := productTotal + platformFee
        let precheck : Option OrderError :=
          match paymentMethod with
          | .wallet =>
              match findByOwnerAndType db.wallets buyerId .buyer with
              | none => some .walletNotFound
              | some bw =>
                  if bw.hasSufficientBalance totalAmount then none
                  else some (.insufficientBalance totalAmount bw.balance)
          | _ => none
        match precheck with
        | some e => (db, .error e)
        | none =>
            let order0 : Order :=
              { id := oid, buyer := buyerId, items := orderItems, totalAmount := totalAmount,
                platformFee := platformFee, deliveryFee := 1000, adminFee := 200,
                status := .pending, paymentStatus := .pending, paymentMethod := paymentMethod,
                deliveryAgent := none, deliveryStatus := .pending }
            let order1 := orderPreSave order0 true
            let db1 : DB := { db with orders := saveOrder db.orders order1 }
            match paymentMethod with
            | .wallet =>
                match findByOwnerAndType db1.wallets buyerId .buyer with
                | none => (db1, .error .serverError)
                | some bw =>
                    let bw1 := bw.addTransaction (mkTx .payment totalAmount ref)
                    let db2 : DB := { db1 with wallets := saveWallet db1.wallets bw1 }
                    let order2 :=
                      orderPreSave
                        { order1 with paymentStatus := .paid, status := .processing } false
                    let db3 : DB := { db2 with orders := saveOrder db2.orders order2 }
                    let r := reduceStockLoop db3 orderItems
                    if r.2 then (r.1, .ok order2) else (r.1, .error .serverError)
            | _ => (db1, .ok order1)

/-- POST /wallet/withdraw (wallet routes): find the wallet (404 when absent),
check `hasSufficientBalance` (400 when insufficient), then append a completed
withdrawal transaction. -/
def walletWithdraw (db : DB) (userId : Nat) (amount : Int) (walletType : WalletType)
    (ref : String) : Option DB :=
  match findByOwnerAndType db.wallets userId walletType with
  | none => none
  | some w =>
      if w.hasSufficientBalance amount then
        some { db with wallets := saveWallet db.wallets (w.addTransaction (mkTx .withdrawal amount ref)) }
      else none

/-- POST /wallet/transfer (wallet routes): reject equal wallet types, find both
wallets of the requesting user, check the source balance, then append a
completed withdrawal to the source and a completed deposit to the destination
— both carrying the same freshly drawn reference — and persist both.  The
route responds with the pair (fromWallet, toWallet). -/
def walletTransfer (db : DB) (userId : Nat) (amount : Int)
    (fromWalletType toWalletType : WalletType) (ref : String) :
    Option (DB × Wallet × Wallet) :=
  if fromWalletType = toWalletType then none
  else
    match findByOwnerAndType db.wallets userId fromWalletType with
    | none => none
    | some fromWallet =>
        match findByOwnerAndType db.wallets userId toWalletType with
        | none => none
        | some toWallet =>
            if fromWallet.hasSufficientBalance amount then
              let fromWallet1 := fromWallet.addTransaction (mkTx .withdrawal amount ref)
              let toWallet1 := toWallet.addTransaction (mkTx .deposit amount ref)
              let db1 : DB := { db with wallets := saveWallet db.wallets fromWallet1 }
              let db2 : DB := { db1 with wallets := saveWallet db1.wallets toWallet1 }
              some (db2, fromWallet1, toWallet1)
            else none

/-- The wallet-payment step shared by POST /subscription, PUT /subscription/renew
and PUT /subscription/change-plan (user.routes.js): find the seller wallet
(404 when absent), check `hasSufficientBalance` against the plan price (400
when insufficient), then append a completed payment transaction of the price. -/
def subscriptionWalletPayment (db : DB) (sellerId : Nat) (price : Int)
    (ref : String) : Option DB :=
  match findByOwnerAndType db.wallets sellerId .seller with
  | none => none
  | some w =>
      if w.hasSufficientBalance price then
        some { db with wallets := saveWallet db.wallets (w.addTransaction (mkTx .payment price ref)) }
      else none

/-- Calendar date at day granularity (a JS `Date` value, ignoring time of day). -/
structure JDate where
  year : Int
  month : Nat
  day : Nat
deriving DecidableEq, Repr

/-- Gregorian leap-year rule, as used by ECMAScript date arithmetic. -/
def isLeapYear (y : Int) : Bool :=
  (y % 4 == 0 && y % 100 != 0) || y % 400 == 0

/-- Length of a month (months numbered 1..12). -/
def daysInMonth (y : Int) (m : Nat) : Nat :=
  if m = 4 ∨ m = 6 ∨ m = 9 ∨ m = 11 then 30
  else if m = 2 then (if isLeapYear y then 29 else 28)
  else 31

/-- Normalize a date whose day count may exceed its month length, carrying the
overflow into the following months, as ECMAScript MakeDay does after
setDate / setMonth / setFullYear. -/
def carryDays : Nat → Int → Nat → Nat → JDate
  | 0, y, m, d => ⟨y, m, d⟩
  | fuel + 1, y, m, d =>
      let dim := daysInMonth y m
      if d ≤ dim then ⟨y, m, d⟩
      else if m = 12 then carryDays fuel (y + 1) 1 (d - dim)
      else carryDays fuel y (m + 1) (d - dim)

/-- `date.setDate(date.getDate() + n)` of ECMAScript, at day granularity. -/
def jsSetDatePlus (dt : JDate) (n : Nat) : JDate :=
  carryDays (n + 2) dt.year dt.month (dt.day + n)

/-- `date.setMonth(date.getMonth() + n)` of ECMAScript: advance the (0-based)
month with overflow into the year, then normalize a day overflow. -/
def jsSetMonthPlus (dt : JDate) (n : Nat) : JDate :=
  let m0 := dt.month - 1 + n
  carryDays 2 (dt.year + (m0 / 12 : Nat)) (m0 % 12 + 1) dt.day

/-- `date.setFullYear(date.getFullYear() + n)` of ECMAScript. -/
def jsSetFullYearPlus (dt : JDate) (n : Nat) : JDate :=
  carryDays 2 (dt.year + n) dt.month dt.day

/-- Subscription `plan` enum of the subscription schema. -/
inductive Plan
  | free_trial | weekly | monthly | yearly
deriving DecidableEq, Repr

/-- Subscription `status` enum of the subscription schema. -/
inductive SubStatus
  | active | expired | cancelled | pending
deriving DecidableEq, Repr

/-- One entry of the subscription's `renewalHistory` array, restricted to the
fields the verified code writes from the archived cycle. -/
structure RenewalRecord where
  plan : Plan
  startDate : JDate
  endDate : JDate
  price : Int
  status : SubStatus
deriving DecidableEq, Repr

/-- Subscription document (subscription schema), restricted to the fields the
verified code reads or writes. -/
structure Subscription where
  plan : Plan
  status : SubStatus
  startDate : JDate
  endDate : JDate
  price : Int
  renewalHistory : List RenewalRecord
deriving DecidableEq, Repr

/-- `subscriptionSchema.methods.renew`: archive the current cycle to
renewalHistory, set the status active, assign `this.startDate = currentDate`,
and recompute endDate by plan duration with
`this.endDate = new Date(currentDate.setDate/setMonth/setFullYear(...))`.
In the source `currentDate` is a single mutable `Date` object:
`this.startDate = currentDate` stores a reference to it (mongoose's Date cast
returns a `Date` instance unchanged), and the subsequent
`currentDate.setDate/setMonth/setFullYear` call mutates that same object in
place before the document is saved.  Hence for the weekly, monthly and yearly
plans the persisted startDate holds the advanced date — equal to the new
endDate — not the renewal time; only the default (free_trial) branch, which
performs no mutation, leaves startDate at the renewal time.  The model
resolves each date reference to its value at save time. -/
def Subscription.renew (s : Subscription) (now : JDate) : Subscription :=
  let hist := s.renewalHistory ++ [⟨s.plan, s.startDate, s.endDate, s.price, s.status⟩]
  match s.plan with
  | .weekly =>
      let cur := jsSetDatePlus now 7
      { s with renewalHistory := hist, status := .active, startDate := cur, endDate := cur }
  | .monthly =>
      let cur := jsSetMonthPlus now 1
      { s with renewalHistory := hist, status := .active, startDate := cur, endDate := cur }
  | .yearly =>
      let cur := jsSetFullYearPlus now 1
      { s with renewalHistory := hist, status := .active, startDate := cur, endDate := cur }
  | .free_trial =>
      { s with renewalHistory := hist, status := .active, startDate := now }

/-- Concrete monthly subscription covering 2023-12-01 .. 2024-01-01. -/
def subMonthlyC : Subscription :=
  ⟨.monthly, .active, ⟨2023, 12, 1⟩, ⟨2024, 1, 1⟩, 7500, []⟩

/-- C8 at the spec's input: renewing the monthly subscription on 2024-01-01
archives the old cycle and sets endDate to 2024-02-01 as claimed, but
startDate is not reset to the renewal time 2024-01-01 — the `Date` object
assigned to startDate is mutated in place by `setMonth`, leaving startDate
equal to the new endDate 2024-02-01. -/
theorem renew_monthly_startDate_clobbered :
    (subMonthlyC.renew ⟨2024, 1, 1⟩).endDate = ⟨2024, 2, 1⟩ ∧
    (subMonthlyC.renew ⟨2024, 1, 1⟩).startDate = ⟨2024, 2, 1⟩ ∧
    (subMonthlyC.renew ⟨2024, 1, 1⟩).startDate ≠ ⟨2024, 1, 1⟩ ∧
    (subMonthlyC.renew ⟨2024, 1, 1⟩).renewalHistory =
      [⟨.monthly, ⟨2023, 12, 1⟩, ⟨2024, 1, 1⟩, 7500, .active⟩] := by
  refine ⟨rfl, rfl, by decide, rfl⟩

/-- The transaction log after `addTransaction` is the old log with the new
transaction appended. -/
theorem addTransaction_transactions (w : Wallet) (tx : Transaction) :
    (w.addTransaction tx).transactions = w.transactions ++ [tx] := by
  simp only [Wallet.addTransaction]
  split_ifs <;> rfl

/-- `addTransaction` with a credit-type transaction adds the amount. -/
theorem addTransaction_credit_balance (w : Wallet) (ty : TxType) (a : Int) (r : String)
    (h : isCreditType ty = true) :
    (w.addTransaction (mkTx ty a r)).balance = w.balance + a := by
  simp [Wallet.addTransaction, mkTx, h]

/-- `addTransaction` with a debit-type transaction subtracts the amount. -/
theorem addTransaction_debit_balance (w : Wallet) (ty : TxType) (a : Int) (r : String)
    (hc : isCreditType ty = false) (hd : isDebitType ty = true) :
    (w.addTransaction (mkTx ty a r)).balance = w.balance - a := by
  simp [Wallet.addTransaction, mkTx, hc, hd]

/-- A wallet found by `findByOwnerAndType` is in the store. -/
theorem findByOwnerAndType_mem {ws : List Wallet} {o : Nat} {t : WalletType} {w : Wallet}
    (h : findByOwnerAndType ws o t = some w) : w ∈ ws :=
  List.mem_of_find?_eq_some h

/-- Every wallet of a store after `saveWallet` is the saved wallet or one of
the original wallets. -/
theorem mem_saveWallet {x w : Wallet} :
    ∀ {ws : List Wallet}, x ∈ saveWallet ws w → x = w ∨ x ∈ ws := by
  intro ws
  induction ws with
  | nil => simp [saveWallet]
  | cons a as ih =>
      simp only [saveWallet]
      split_ifs with hkey
      · intro hx
        rcases List.mem_cons.mp hx with h1 | h1
        · exact Or.inl h1
        · exact Or.inr (List.mem_cons_of_mem _ h1)
      · intro hx
        rcases List.mem_cons.mp hx with h1 | h1
        · exact Or.inr (h1 ▸ List.mem_cons_self _ _)
        · rcases ih h1 with h2 | h2
          · exact Or.inl h2
          · exact Or.inr (List.mem_cons_of_mem _ h2)

/-- C10: a successful wallet-to-wallet transfer (distinct wallet types of one
owner, both wallets present, source balance at least the amount) debits the
source by exactly the amount, credits the destination by exactly the amount,
preserves the sum of the two balances, and appends exactly one withdrawal
transaction to the source and one deposit transaction to the destination,
both carrying the same reference. -/
theorem transfer_balances_and_transactions
    (db : DB) (uid : Nat) (amount : Int) (ft tt : WalletType) (ref : String)
    (fw tw : Wallet)
    (hne : ft ≠ tt)
    (hf : findByOwnerAndType db.wallets uid ft = some fw)
    (ht : findByOwnerAndType db.wallets uid tt = some tw)
    (hbal : amount ≤ fw.balance) :
    walletTransfer db uid amount ft tt ref =
      some ({ db with wallets :=
                (saveWallet
                  (saveWallet db.wallets (fw.addTransaction (mkTx .withdrawal amount ref)))
                  (tw.addTransaction (mkTx .deposit amount ref))) },
            fw.addTransaction (mkTx .withdrawal amount ref),
            tw.addTransaction (mkTx .deposit amount ref)) ∧
    (fw.addTransaction (mkTx .withdrawal amount ref)).balance = fw.balance - amount ∧
    (tw.addTransaction (mkTx .deposit amount ref)).balance = tw.balance + amount ∧
    (fw.addTransaction (mkTx .withdrawal amount ref)).balance +
        (tw.addTransaction (mkTx .deposit amount ref)).balance = fw.balance + tw.balance ∧
    (fw.addTransaction (mkTx .withdrawal amount ref)).transactions =
        fw.transactions ++ [mkTx .withdrawal amount ref] ∧
    (tw.addTransaction (mkTx .deposit amount ref)).transactions =
        tw.transactions ++ [mkTx .deposit amount ref] := by
  have hwb := addTransaction_debit_balance fw .withdrawal amount ref rfl rfl
  have hdb := addTransaction_credit_balance tw .deposit amount ref rfl
  refine ⟨?_, hwb, hdb, by rw [hwb, hdb]; ring, addTransaction_transactions _ _,
    addTransaction_transactions _ _⟩
  have hsuff : fw.hasSufficientBalance amount = true := by
    simpa [Wallet.hasSufficientBalance] using hbal
  simp [walletTransfer, hne, hf, ht, hsuff]

/-- Concrete store for the transfer scenario: owner 7 holds a buyer wallet with
5000 XOF and a seller wallet with 100 XOF. -/
def dbTransferC : DB := ⟨[], [], [⟨7, .buyer, 5000, []⟩, ⟨7, .seller, 100, []⟩], []⟩

/-- Witness for C10: owner 7 moves 3000 XOF from the buyer wallet to the
seller wallet. -/
theorem transfer_balances_and_transactions_witness :
    walletTransfer dbTransferC 7 3000 .buyer .seller "rT" =
      some ({ dbTransferC with wallets :=
                (saveWallet
                  (saveWallet dbTransferC.wallets
                    (Wallet.addTransaction ⟨7, .buyer, 5000, []⟩ (mkTx .withdrawal 3000 "rT")))
                  (Wallet.addTransaction ⟨7, .seller, 100, []⟩ (mkTx .deposit 3000 "rT"))) },
            Wallet.addTransaction ⟨7, .buyer, 5000, []⟩ (mkTx .withdrawal 3000 "rT"),
            Wallet.addTransaction ⟨7, .seller, 100, []⟩ (mkTx .deposit 3000 "rT")) ∧
    (Wallet.addTransaction ⟨7, .buyer, 5000, []⟩ (mkTx .withdrawal 3000 "rT")).balance =
        (5000 : Int) - 3000 ∧
    (Wallet.addTransaction ⟨7, .seller, 100, []⟩ (mkTx .deposit 3000 "rT")).balance =
        (100 : Int) + 3000 ∧
    (Wallet.addTransaction ⟨7, .buyer, 5000, []⟩ (mkTx .withdrawal 3000 "rT")).balance +
        (Wallet.addTransaction ⟨7, .seller, 100, []⟩ (mkTx .deposit 3000 "rT")).balance =
        (5000 : Int) + 100 ∧
    (Wallet.addTransaction ⟨7, .buyer, 5000, []⟩ (mkTx .withdrawal 3000 "rT")).transactions =
        [] ++ [mkTx .withdrawal 3000 "rT"] ∧
    (Wallet.addTransaction ⟨7, .seller, 100, []⟩ (mkTx .deposit 3000 "rT")).transactions =
        [] ++ [mkTx .deposit 3000 "rT"] :=
  transfer_balances_and_transactions dbTransferC 7 3000 .buyer .seller "rT"
    ⟨7, .buyer, 5000, []⟩ ⟨7, .seller, 100, []⟩ (by decide) rfl rfl (by decide)

/-- The stock-reduction loop never touches the wallet store. -/
theorem reduceStockLoop_wallets (its : List OrderItem) :
    ∀ db : DB, (reduceStockLoop db its).1.wallets = db.wallets := by
  induction its with
  | nil => intro db; rfl
  | cons it rest ih =>
      intro db
      simp only [reduceStockLoop]
      split
      · rfl
      · split
        · rfl
        · simpa using ih _

/-- Every order item built by the validation loop has
subtotal = price * quantity. -/
theorem buildOrderItems_subtotal (products : List Product) :
    ∀ (reqItems : List RequestItem) (its : List OrderItem),
      buildOrderItems products reqItems = .ok its →
      ∀ it ∈ its, it.subtotal = it.price * it.quantity := by
  intro reqItems
  induction reqItems with
  | nil =>
      intro its h it hit
      simp only [buildOrderItems] at h
      cases h
      simp at hit
  | cons a rest ih =>
      intro its h it hit
      cases hfind : products.find? (fun p => decide (p.id = a.product)) with
      | none => simp [buildOrderItems, hfind] at h
      | some p =>
          simp only [buildOrderItems, hfind] at h
          split_ifs at h
          cases hrec : buildOrderItems products rest with
          | error e => rw [hrec] at h; cases h
          | ok tail =>
              rw [hrec] at h
              cases h
              rcases List.mem_cons.mp hit with h3 | h3
              · subst h3; rfl
              · exact ih tail hrec it h3

/-- Shape of a successful POST /orders: the returned order carries the built
items, the fixed 1200 XOF platform fee and totalAmount = item subtotals plus
the fee, and the wallet store is either untouched (non-wallet payment) or is
the original store with one guarded payment debit of totalAmount applied to
the buyer wallet. -/
theorem createOrderRoute_ok_shape
    (db : DB) (buyerId : Nat) (reqItems : List RequestItem) (pm : PaymentMethod)
    (ref : String) (oid : Nat) (db1 : DB) (order : Order)
    (h : createOrderRoute db buyerId reqItems pm ref oid = (db1, .ok order)) :
    ∃ its, buildOrderItems db.products reqItems = .ok its ∧
      order.items = its ∧
      order.platformFee = 1200 ∧
      order.totalAmount = (its.map OrderItem.subtotal).sum + 1200 ∧
      (db1.wallets = db.wallets ∨
        ∃ bw, findByOwnerAndType db.wallets buyerId .buyer = some bw ∧
          ((its.map OrderItem.subtotal).sum + 1200) ≤ bw.balance ∧
          db1.wallets = saveWallet db.wallets
            (bw.addTransaction (mkTx .payment ((its.map OrderItem.subtotal).sum + 1200) ref))) := by
  by_cases hne : reqItems = []
  · simp [createOrderRoute, hne] at h
  · cases hb : buildOrderItems db.products reqItems with
    | error e => simp [createOrderRoute, hne, hb] at h
    | ok its =>
        refine ⟨its, rfl, ?_⟩
        cases pm with
        | wallet =>
            cases hw : findByOwnerAndType db.wallets buyerId .buyer with
            | none => simp [createOrderRoute, hne, hb, hw] at h
            | some bw =>
                by_cases hs :
                    bw.hasSufficientBalance ((its.map OrderItem.subtotal).sum + 1200) = true
                · simp only [createOrderRoute, hne, hb, hw, hs, if_neg hne, if_true,
                    Bool.false_eq_true, orderPreSave, if_false, ite_true, ite_false] at h
                  split at h
                  · simp only [Prod.mk.injEq, Except.ok.injEq] at h
                    obtain ⟨h1, h2⟩ := h
                    subst h1
                    subst h2
                    refine ⟨rfl, rfl, rfl, Or.inr ⟨bw, rfl, ?_, ?_⟩⟩
                    · exact of_decide_eq_true hs
                    · rw [reduceStockLoop_wallets]
                  · simp at h
                · simp [createOrderRoute, hne, hb, hw, hs] at h
        | mobile_money =>
            simp only [createOrderRoute, hne, hb, if_neg hne, if_true,
              Bool.false_eq_true, orderPreSave, if_false, ite_true, ite_false,
              Prod.mk.injEq, Except.ok.injEq] at h
            obtain ⟨h1, h2⟩ := h
            subst h1
            subst h2
            exact ⟨rfl, rfl, rfl, Or.inl rfl⟩
        | credit_card =>
            simp only [createOrderRoute, hne, hb, if_neg hne, if_true,
              Bool.false_eq_true, orderPreSave, if_false, ite_true, ite_false,
              Prod.mk.injEq, Except.ok.injEq] at h
            obtain ⟨h1, h2⟩ := h
            subst h1
            subst h2
            exact ⟨rfl, rfl, rfl, Or.inl rfl⟩
        | bank_transfer =>
            simp only [createOrderRoute, hne, hb, if_neg hne, if_true,
              Bool.false_eq_true, orderPreSave, if_false, ite_true, ite_false,
              Prod.mk.injEq, Except.ok.injEq] at h
            obtain ⟨h1, h2⟩ := h
            subst h1
            subst h2
            exact ⟨rfl, rfl, rfl, Or.inl rfl⟩

/-- C6: every order created from a non-empty item list carries the fixed
1200 XOF platform fee, its totalAmount is the sum of the item subtotals plus
that fee, every item subtotal is unit price times quantity, and the pre-save
hook recomputes the same totalAmount when the items path is modified. -/
theorem order_totalAmount_correct
    (db : DB) (buyerId : Nat) (reqItems : List RequestItem) (pm : PaymentMethod)
    (ref : String) (oid : Nat) (db1 : DB) (order : Order)
    (hne : reqItems ≠ [])
    (h : createOrderRoute db buyerId reqItems pm ref oid = (db1, .ok order)) :
    order.platformFee = 1200 ∧
    order.totalAmount = (order.items.map OrderItem.subtotal).sum + 1200 ∧
    (∀ it ∈ order.items, it.subtotal = it.price * it.quantity) ∧
    (orderPreSave order true).totalAmount = (order.items.map OrderItem.subtotal).sum + 1200 := by
  obtain ⟨its, hb, hitems, hpf, hta, -⟩ :=
    createOrderRoute_ok_shape db buyerId reqItems pm ref oid db1 order h
  refine ⟨hpf, ?_, ?_, ?_⟩
  · rw [hitems, hta]
  · intro it hit
    exact buildOrderItems_subtotal db.products reqItems its hb it (hitems ▸ hit)
  · simp [orderPreSave, hpf]

/-- The order returned by the concrete C6/C4 witness invocation. -/
def orderW : Order :=
  ⟨101, 5, [⟨11, 1, 5000, 5000⟩], 6200, 1200, 1000, 200, .processing, .paid, .wallet,
   none, .pending⟩

/-- Witness for C6: buyer 5 orders one unit of product 11 (5000 XOF) paying
from the wallet; totalAmount is 5000 + 1200 = 6200. -/
theorem order_totalAmount_correct_witness :
    orderW.platformFee = 1200 ∧
    orderW.totalAmount = (orderW.items.map OrderItem.subtotal).sum + 1200 ∧
    (∀ it ∈ orderW.items, it.subtotal = it.price * it.quantity) ∧
    (orderPreSave orderW true).totalAmount = (orderW.items.map OrderItem.subtotal).sum + 1200 :=
  order_totalAmount_correct dbC 5 [⟨11, 1⟩] .wallet "rO" 101
    (createOrderRoute dbC 5 [⟨11, 1⟩] .wallet "rO" 101).1 orderW
    (by decide) rfl

/-- C7: a wallet-paid order-creation request whose items all validate but whose
buyer wallet balance is below the computed totalAmount is rejected with the
insufficient-balance error carrying the required and available amounts, and
the store is returned unchanged: no order is persisted, no wallet transaction
is appended, and no product stock changes. -/
theorem insufficient_balance_no_side_effects
    (db : DB) (buyerId : Nat) (reqItems : List RequestItem) (ref : String) (oid : Nat)
    (its : List OrderItem) (bw : Wallet)
    (hne : reqItems ≠ [])
    (hb : buildOrderItems db.products reqItems = .ok its)
    (hw : findByOwnerAndType db.wallets buyerId .buyer = some bw)
    (hlt : bw.balance < (its.map OrderItem.subtotal).sum + 1200) :
    createOrderRoute db buyerId reqItems .wallet ref oid =
      (db, .error (.insufficientBalance ((its.map OrderItem.subtotal).sum + 1200) bw.balance)) := by
  have hsuff : bw.hasSufficientBalance ((its.map OrderItem.subtotal).sum + 1200) = false := by
    simp only [Wallet.hasSufficientBalance, decide_eq_false_iff_not]
    omega
  simp [createOrderRoute, hne, hb, hw, hsuff]

/-- Witness for C7: buyer 8 holds only 3000 XOF; ordering one unit of product
11 (total 6200 XOF) fails with the insufficient-balance error and leaves the
store untouched. -/
theorem insufficient_balance_no_side_effects_witness :
    createOrderRoute ⟨usersC, productsC, [⟨8, .buyer, 3000, []⟩], []⟩ 8 [⟨11, 1⟩] .wallet "rP" 102 =
      (⟨usersC, productsC, [⟨8, .buyer, 3000, []⟩], []⟩,
       .error (.insufficientBalance (([(⟨11, 1, 5000, 5000⟩ : OrderItem)].map OrderItem.subtotal).sum + 1200) 3000)) :=
  insufficient_balance_no_side_effects ⟨usersC, productsC, [⟨8, .buyer, 3000, []⟩], []⟩ 8
    [⟨11, 1⟩] "rP" 102 [⟨11, 1, 5000, 5000⟩] ⟨8, .buyer, 3000, []⟩
    (by decide) rfl rfl (by decide)

/-- Every wallet of the store has a non-negative balance. -/
def nonNegDB (db : DB) : Prop := ∀ w ∈ db.wallets, 0 ≤ w.balance

/-- Saving a wallet with non-negative balance into a store of wallets with
non-negative balances keeps every balance non-negative. -/
theorem nonNeg_saveWallet {ws : List Wallet} {w : Wallet}
    (hws : ∀ x ∈ ws, 0 ≤ x.balance) (hw : 0 ≤ w.balance) :
    ∀ x ∈ saveWallet ws w, 0 ≤ x.balance := by
  intro x hx
  rcases mem_saveWallet hx with rfl | hx2
  · exact hw
  · exact hws x hx2

/-- C4: starting from a store whose wallets all have non-negative balances,
every debit operation reachable through the routes — wallet withdraw, wallet
transfer, wallet-paid order creation, and the wallet-payment step of the
subscription routes — checks `hasSufficientBalance` before appending the
debit, so each of them, when it succeeds, leaves every wallet balance
non-negative. -/
theorem debit_routes_preserve_nonneg
    (db : DB) (uid : Nat) (amount price : Int) (wt ft tt : WalletType)
    (pm : PaymentMethod) (reqItems : List RequestItem) (ref : String) (oid : Nat)
    (hamount : 0 < amount) (hdb : nonNegDB db) :
    (∀ db1, walletWithdraw db uid amount wt ref = some db1 → nonNegDB db1) ∧
    (∀ db1 fw tw, walletTransfer db uid amount ft tt ref = some (db1, fw, tw) → nonNegDB db1) ∧
    (∀ db1 order, createOrderRoute db uid reqItems pm ref oid = (db1, .ok order) → nonNegDB db1) ∧
    (∀ db1, subscriptionWalletPayment db uid price ref = some db1 → nonNegDB db1) := by
  refine ⟨?_, ?_, ?_, ?_⟩
  · intro db1 h
    unfold walletWithdraw at h
    cases hw : findByOwnerAndType db.wallets uid wt with
    | none => rw [hw] at h; cases h
    | some w =>
        rw [hw] at h
        by_cases hs : w.hasSufficientBalance amount = true
        · simp only [hs, if_true, Option.some.injEq] at h
          subst h
          intro x hx
          refine nonNeg_saveWallet hdb ?_ x hx
          rw [addTransaction_debit_balance w .withdrawal amount ref rfl rfl]
          have hba := of_decide_eq_true hs
          have := hdb w (findByOwnerAndType_mem hw)
          omega
        · simp only [hs] at h
          simp at h
  · intro db1 fw tw h
    unfold walletTransfer at h
    by_cases hftt : ft = tt
    · simp [hftt] at h
    · rw [if_neg hftt] at h
      cases hf : findByOwnerAndType db.wallets uid ft with
      | none => rw [hf] at h; cases h
      | some fw0 =>
          rw [hf] at h
          cases ht2 : findByOwnerAndType db.wallets uid tt with
          | none => rw [ht2] at h; cases h
          | some tw0 =>
              rw [ht2] at h
              by_cases hs : fw0.hasSufficientBalance amount = true
              · simp only [hs, if_true, Option.some.injEq, Prod.mk.injEq] at h
                obtain ⟨h1, -, -⟩ := h
                subst h1
                intro x hx
                refine nonNeg_saveWallet (nonNeg_saveWallet hdb ?_) ?_ x hx
                · rw [addTransaction_debit_balance fw0 .withdrawal amount ref rfl rfl]
                  have hba := of_decide_eq_true hs
                  omega
                · rw [addTransaction_credit_balance tw0 .deposit amount ref rfl]
                  have := hdb tw0 (findByOwnerAndType_mem ht2)
                  omega
              · simp only [hs] at h
                simp at h
  · intro db1 order h
    obtain ⟨its, -, -, -, -, hwal⟩ :=
      createOrderRoute_ok_shape db uid reqItems pm ref oid db1 order h
    rcases hwal with hsame | ⟨bw, hbw, hle, hsave⟩
    · intro x hx
      rw [hsame] at hx
      exact hdb x hx
    · intro x hx
      rw [hsave] at hx
      refine nonNeg_saveWallet hdb ?_ x hx
      rw [addTransaction_debit_balance bw .payment _ ref rfl rfl]
      omega
  · intro db1 h
    unfold subscriptionWalletPayment at h
    cases hw : findByOwnerAndType db.wallets uid .seller with
    | none => rw [hw] at h; cases h
    | some w =>
        rw [hw] at h
        by_cases hs : w.hasSufficientBalance price = true
        · simp only [hs, if_true, Option.some.injEq] at h
          subst h
          intro x hx
          refine nonNeg_saveWallet hdb ?_ x hx
          rw [addTransaction_debit_balance w .payment price ref rfl rfl]
          have hba := of_decide_eq_true hs
          omega
        · simp only [hs] at h
          simp at h

/-- Witness for C4 at the concrete store `dbC` (all balances non-negative),
with amount 100 and price 2000. -/
theorem debit_routes_preserve_nonneg_witness :
    (∀ db1, walletWithdraw dbC 5 100 .buyer "rW" = some db1 → nonNegDB db1) ∧
    (∀ db1 fw tw, walletTransfer dbC 5 100 .buyer .seller "rW" = some (db1, fw, tw) →
      nonNegDB db1) ∧
    (∀ db1 order, createOrderRoute dbC 5 [⟨11, 1⟩] .wallet "rW" 103 = (db1, .ok order) →
      nonNegDB db1) ∧
    (∀ db1, subscriptionWalletPayment dbC 5 2000 "rW" = some db1 → nonNegDB db1) :=
  debit_routes_preserve_nonneg dbC 5 100 2000 .buyer .buyer .seller .wallet [⟨11, 1⟩] "rW" 103
    (by decide) (by unfold nonNegDB; decide)

end SuperUp
